import Mathlib

/-!
Verification of the resource-aggregation core of `process_bundle.py`
(`convert_memory_units`, `convert_cpu_units`, and the `resources` command).

The Python code is embedded shallowly:
* quantity values are `ℚ` (Python uses exact true division on the integers
  occurring here, so `ℚ` tracks the computed values exactly for the inputs
  this tool handles);
* Python exceptions (`AssertionError`, `KeyError`, `ValueError`) become an
  explicit `Err` value threaded through `Except`;
* Python dicts keyed by strings become insertion-ordered association lists
  (`List (String × _)`); key uniqueness is enforced by the same `assert`s the
  code performs;
* the nested-dict documents are flattened into record types whose `Option`
  fields record whether the corresponding key is present in the document,
  matching the `if "k" in d` / `d["k"]` accesses of the source.
-/

/-- Python exception outcomes produced by the code under study:
`AssertionError` (a bare `assert` carries the empty message, `assert cond, m`
carries `m`), `KeyError` from `d["k"]` with the missing key, and `ValueError`
from `int(s)` on a non-numeric string. -/
inductive Err where
  | assertionError (msg : String)
  | keyError (key : String)
  | valueError (msg : String)
deriving DecidableEq, Repr

/-- Message text carried by an exception, as Python would display it. -/
def Err.text : Err → String
  | .assertionError msg => msg
  | .keyError key => key
  | .valueError msg => msg

deriving instance DecidableEq for Except

/-- Numeric value denoted by a string of decimal digits. -/
def strDigitsVal (s : String) : ℕ :=
  s.data.foldl (fun n c => 10 * n + (c.toNat - 48)) 0

/-- Model of Python `int(s)` as used on quantity strings: a nonempty string of
decimal digits parses to its value, anything else raises
`ValueError: invalid literal for int() with base 10: '…'`.  (Python's extra
tolerance for surrounding whitespace, an explicit sign and underscore grouping
is not exercised by this program's quantity strings and is not modelled.) -/
def pyInt (s : String) : Except Err ℤ :=
  if !s.data.isEmpty && s.data.all Char.isDigit then
    .ok (strDigitsVal s : ℤ)
  else
    .error (.valueError ("invalid literal for int() with base 10: '" ++ s ++ "'"))

/-- Model of Python `s.endswith(suffix)`. -/
def strEndsWith (s suffix : String) : Bool :=
  suffix.data.reverse.isPrefixOf s.data.reverse

/-- Model of Python `s[:-n]` for `0 < n ≤ len s`: drop the last `n`
characters. -/
def strDropRight (s : String) (n : ℕ) : String :=
  String.mk (s.data.reverse.drop n).reverse

/-- Embedding of `convert_memory_units` (process_bundle.py lines 18-32):
normalises a memory quantity string to MiB, trying the suffixes in the
source's order and raising `AssertionError` on an unrecognised suffix. -/
def convert_memory_units (memory_string : String) : Except Err ℚ :=
  if strEndsWith memory_string "Mi" then
    (pyInt (strDropRight memory_string 2)).map (fun n => (n : ℚ))
  else if strEndsWith memory_string "M" then
    (pyInt (strDropRight memory_string 1)).map (fun n => (n : ℚ) * 1000000 / 1024 ^ 2)
  else if strEndsWith memory_string "Gi" then
    (pyInt (strDropRight memory_string 2)).map (fun n => (n : ℚ) * 1024)
  else if strEndsWith memory_string "G" then
    (pyInt (strDropRight memory_string 1)).map (fun n => (n : ℚ) * 1000 ^ 3 / 1024 ^ 3)
  else if strEndsWith memory_string "Ki" then
    (pyInt (strDropRight memory_string 2)).map (fun n => (n : ℚ) / 1024)
  else if strEndsWith memory_string "K" then
    (pyInt (strDropRight memory_string 1)).map (fun n => (n : ℚ) * 1000 / 1024 ^ 2)
  else
    .error (.assertionError ("unsupported units for memory limit: " ++ memory_string))

/-- Embedding of `convert_cpu_units` (process_bundle.py lines 35-39): a
trailing `m` divides the integer prefix by 1000, otherwise the whole string is
parsed as an integer. -/
def convert_cpu_units (cpu_string : String) : Except Err ℚ :=
  if strEndsWith cpu_string "m" then
    (pyInt (strDropRight cpu_string 1)).map (fun n => (n : ℚ) / 1000)
  else
    (pyInt cpu_string).map (fun n => (n : ℚ))

/-! ## Data model

The two documents consumed by the `resources` command, flattened from their
nested-dict form.  An `Option` field is `none` exactly when the corresponding
key is absent from the document. -/

/-- A `limits` or `requests` mapping of a container's `resources`. -/
structure ResourceSpec where
  memory : Option String
  cpu : Option String
deriving DecidableEq, Repr

/-- The value of a container's `resources` key. -/
structure ContainerResources where
  limits : Option ResourceSpec
  requests : Option ResourceSpec
deriving DecidableEq, Repr

/-- One entry of a pod's `spec.containers` list; the `resources` key itself
may be absent (`container["resources"]` then raises `KeyError`). -/
structure ContainerData where
  resources : Option ContainerResources
deriving DecidableEq, Repr

/-- One item of the pod-list document: `metadata.namespace`, `metadata.name`,
the optional `spec.nodeName`, and `spec.containers`. -/
structure PodItem where
  pod_namespace : String
  name : String
  nodeName : Option String
  containers : List ContainerData
deriving DecidableEq, Repr

/-- One item of the node-list document: `metadata.name`, the optional pool
label `metadata.labels["konvoy.mesosphere.com/node_pool"]`, and the
allocatable quantity strings `status.allocatable.cpu` / `.memory`. -/
structure NodeItem where
  name : String
  node_pool : Option String
  cpu : String
  memory : String
deriving DecidableEq, Repr

/-- A value of the `nodes_resources` dict: four usage accumulators, the pool
label, and the converted allocatable capacities. -/
structure NodeRec where
  cpu_limit : ℚ
  memory_limit : ℚ
  cpu_request : ℚ
  memory_request : ℚ
  pool : String
  cpu_allocatable : ℚ
  memory_allocatable : ℚ
deriving DecidableEq, Repr

/-- A value of the `pods_resources` dict: the pod's four summed totals and
its assigned node name (or the sentinel `"unallocated"`). -/
structure PodRec where
  cpu_limit : ℚ
  memory_limit : ℚ
  cpu_request : ℚ
  memory_request : ℚ
  node_name : String
deriving DecidableEq, Repr

/-- The four per-pod running totals of the container loop
(`cpu_request_total`, `mem_request_total`, `cpu_limit_total`,
`mem_limit_total` in the source). -/
structure Totals where
  cpu_request : ℚ
  memory_request : ℚ
  cpu_limit : ℚ
  memory_limit : ℚ
deriving DecidableEq, Repr

/-- Componentwise sum of two `Totals`. -/
def Totals.add (a b : Totals) : Totals :=
  ⟨a.cpu_request + b.cpu_request, a.memory_request + b.memory_request,
   a.cpu_limit + b.cpu_limit, a.memory_limit + b.memory_limit⟩

instance : Add Totals := ⟨Totals.add⟩

/-- The zero `Totals`, the loop's initial accumulator. -/
def Totals.zero : Totals := ⟨0, 0, 0, 0⟩

/-- Python dicts keyed by strings are embedded as insertion-ordered
association lists. -/
abbrev NodeMap := List (String × NodeRec)

abbrev PodMap := List (String × PodRec)

/-- Model of Python `k in d` for the string-keyed dicts. -/
def hasKey (m : List (String × α)) (k : String) : Bool :=
  m.any (fun p => p.1 == k)

/-! ## The `resources` command (process_bundle.py lines 85-169)

Each Python loop becomes a step function plus a recursion over the item
list, aborting at the first raised exception. -/

/-- Embedding of one iteration of the node loop (lines 91-104): assert the
name is new, read the pool label, convert both allocatable quantities, and
insert the zero-seeded record. -/
def loadNodesStep (nodes_resources : NodeMap) (node_data : NodeItem) :
    Except Err NodeMap :=
  let node_name := node_data.name
  if hasKey nodes_resources node_name then
    .error (.assertionError "")
  else
    match node_data.node_pool with
    | none => .error (.keyError "konvoy.mesosphere.com/node_pool")
    | some pool =>
      match convert_cpu_units node_data.cpu with
      | .error e => .error e
      | .ok cpuAlloc =>
        match convert_memory_units node_data.memory with
        | .error e => .error e
        | .ok memAlloc =>
          .ok (nodes_resources ++ [(node_name,
            { cpu_limit := 0, memory_limit := 0, cpu_request := 0,
              memory_request := 0, pool := pool,
              cpu_allocatable := cpuAlloc, memory_allocatable := memAlloc })])

/-- The node loop over `nodes_data["items"]`. -/
def loadNodes (acc : NodeMap) : List NodeItem → Except Err NodeMap
  | [] => .ok acc
  | node_data :: rest =>
    match loadNodesStep acc node_data with
    | .error e => .error e
    | .ok acc2 => loadNodes acc2 rest

/-- The limits half of the container body (lines 126-132): add whichever of
`limits.memory` / `limits.cpu` is present. -/
def processLimits (t : Totals) (res : ContainerResources) : Except Err Totals :=
  match res.limits with
  | none => .ok t
  | some limits =>
    let afterMem : Except Err Totals :=
      match limits.memory with
      | none => .ok t
      | some memlimit =>
        match convert_memory_units memlimit with
        | .error e => .error e
        | .ok v => .ok { t with memory_limit := t.memory_limit + v }
    match afterMem with
    | .error e => .error e
    | .ok t1 =>
      match limits.cpu with
      | none => .ok t1
      | some cpulimit =>
        match convert_cpu_units cpulimit with
        | .error e => .error e
        | .ok v => .ok { t1 with cpu_limit := t1.cpu_limit + v }

/-- The requests branch of the container body (lines 133-139), entered when a
`requests` mapping is present: add whichever of `requests.memory` /
`requests.cpu` is present. -/
def processRequests (t : Totals) (requests : ResourceSpec) : Except Err Totals :=
  let afterMem : Except Err Totals :=
    match requests.memory with
    | none => .ok t
    | some memrequest =>
      match convert_memory_units memrequest with
      | .error e => .error e
      | .ok v => .ok { t with memory_request := t.memory_request + v }
  match afterMem with
  | .error e => .error e
  | .ok t1 =>
    match requests.cpu with
    | none => .ok t1
    | some cpurequest =>
      match convert_cpu_units cpurequest with
      | .error e => .error e
      | .ok v => .ok { t1 with cpu_request := t1.cpu_request + v }

/-- Embedding of one iteration of the container loop (lines 125-144):
`container["resources"]` raises `KeyError` if absent; limits are processed
first; then either the `requests` fields are added, or — when `requests` is
absent — the fixed default of 1 CPU and 512 MiB is added to the limit
totals. -/
def containerStep (t : Totals) (container : ContainerData) : Except Err Totals :=
  match container.resources with
  | none => .error (.keyError "resources")
  | some res =>
    match processLimits t res with
    | .error e => .error e
    | .ok t2 =>
      match res.requests with
      | none =>
        .ok { t2 with cpu_limit := t2.cpu_limit + 1,
                      memory_limit := t2.memory_limit + 512 }
      | some requests => processRequests t2 requests

/-- The container loop over `pod_data["spec"]["containers"]`. -/
def processContainers (t : Totals) : List ContainerData → Except Err Totals
  | [] => .ok t
  | container :: rest =>
    match containerStep t container with
    | .error e => .error e
    | .ok t2 => processContainers t2 rest

/-- The namespaced pod key `"{namespace}/{name}"` (lines 111-114). -/
def podKey (pod_data : PodItem) : String :=
  pod_data.pod_namespace ++ "/" ++ pod_data.name

/-- Embedding of one iteration of the pod loop (lines 110-152): assert the
namespaced key is new, determine the assignment (recording a missing
`nodeName` in `unallocated_pods`), run the container loop from zero, and
insert the resulting `PodRec`. -/
def loadPodsStep (st : PodMap × List String) (pod_data : PodItem) :
    Except Err (PodMap × List String) :=
  let pod_name_namespaced := podKey pod_data
  if hasKey st.1 pod_name_namespaced then
    .error (.assertionError "")
  else
    let assignment : String × List String :=
      match pod_data.nodeName with
      | some n => (n, st.2)
      | none => ("unallocated", st.2 ++ [pod_name_namespaced])
    match processContainers Totals.zero pod_data.containers with
    | .error e => .error e
    | .ok t =>
      .ok (st.1 ++ [(pod_name_namespaced,
        { cpu_limit := t.cpu_limit, memory_limit := t.memory_limit,
          cpu_request := t.cpu_request, memory_request := t.memory_request,
          node_name := assignment.1 })], assignment.2)

/-- The pod loop over `pods_data["items"]`. -/
def loadPods (st : PodMap × List String) :
    List PodItem → Except Err (PodMap × List String)
  | [] => .ok st
  | pod_data :: rest =>
    match loadPodsStep st pod_data with
    | .error e => .error e
    | .ok st2 => loadPods st2 rest

/-- Replace the value stored under the first occurrence of key `k` (dict
keys are unique, so this is Python's `d[k] = f(d[k])`). -/
def updateFirst (k : String) (f : NodeRec → NodeRec) : NodeMap → NodeMap
  | [] => []
  | p :: rest => if p.1 == k then (p.1, f p.2) :: rest else p :: updateFirst k f rest

/-- Embedding of one iteration of the aggregation loop (lines 160-166): skip
pods whose node is `"unallocated"`, assert the node exists, and add the
pod's four totals into the node's accumulators. -/
def aggregateStep (nodes_resources : NodeMap) (pod : String × PodRec) :
    Except Err NodeMap :=
  let pods_node := pod.2.node_name
  if pods_node == "unallocated" then
    .ok nodes_resources
  else if hasKey nodes_resources pods_node then
    .ok (updateFirst pods_node (fun n =>
      { n with cpu_limit := n.cpu_limit + pod.2.cpu_limit,
               memory_limit := n.memory_limit + pod.2.memory_limit,
               cpu_request := n.cpu_request + pod.2.cpu_request,
               memory_request := n.memory_request + pod.2.memory_request })
      nodes_resources)
  else
    .error (.assertionError "")

/-- The aggregation loop over `pods_resources` in insertion order. -/
def aggregate (nodes_resources : NodeMap) : PodMap → Except Err NodeMap
  | [] => .ok nodes_resources
  | pod :: rest =>
    match aggregateStep nodes_resources pod with
    | .error e => .error e
    | .ok nodes2 => aggregate nodes2 rest

/-- Embedding of the whole `resources` command on already-parsed documents:
load the node inventory, load the pods, fold allocated pods into their
nodes, and return the final node map, the pod map, and the unallocated-pod
keys. -/
def resources (nodes_data : List NodeItem) (pods_data : List PodItem) :
    Except Err (NodeMap × PodMap × List String) :=
  match loadNodes [] nodes_data with
  | .error e => .error e
  | .ok nodes_resources =>
    match loadPods ([], []) pods_data with
    | .error e => .error e
    | .ok st =>
      match aggregate nodes_resources st.1 with
      | .error e => .error e
      | .ok final => .ok (final, st.1, st.2)

/-! ## Sums used by the conservation statements -/

/-- The four usage accumulators of a node record, as a `Totals`. -/
def nodeTotals (n : NodeRec) : Totals :=
  ⟨n.cpu_request, n.memory_request, n.cpu_limit, n.memory_limit⟩

/-- The four totals of a pod record, as a `Totals`. -/
def podTotals (p : PodRec) : Totals :=
  ⟨p.cpu_request, p.memory_request, p.cpu_limit, p.memory_limit⟩

/-- Componentwise sum of the usage accumulators over every node of the map. -/
def nodeSums : NodeMap → Totals
  | [] => Totals.zero
  | p :: rest => nodeTotals p.2 + nodeSums rest

/-- Componentwise sum of the totals of every pod whose assigned node is not
`"unallocated"`. -/
def podSumsAlloc : PodMap → Totals
  | [] => Totals.zero
  | p :: rest =>
    (if p.2.node_name == "unallocated" then Totals.zero else podTotals p.2)
      + podSumsAlloc rest

/-! ## Concrete documents used by the witnesses and counterexamples -/

/-- Node `"node-a"`: allocatable cpu `"4"`, memory `"8Gi"`, pool
`"default"`. -/
def nodeA : NodeItem := ⟨"node-a", some "default", "4", "8Gi"⟩

/-- Pod `"ns/app"` on `"node-a"`: a container requesting `"500m"` CPU and
`"256Mi"` memory with no limits block, then a container whose `resources`
mapping is empty (no requests block). -/
def podApp : PodItem :=
  ⟨"ns", "app", some "node-a",
   [⟨some ⟨none, some ⟨some "256Mi", some "500m"⟩⟩⟩,
    ⟨some ⟨none, none⟩⟩]⟩

/-- A pod whose only container has an explicit limits block (cpu `"2"`,
memory `"100Mi"`) and no requests block. -/
def podLimitsNoRequests : PodItem :=
  ⟨"ns", "lim", some "node-a",
   [⟨some ⟨some ⟨some "100Mi", some "2"⟩, none⟩⟩]⟩

/-- A pod whose only container carries the malformed memory limit `"5Q"`. -/
def podBadQuantity : PodItem :=
  ⟨"ns", "bad", some "node-a",
   [⟨some ⟨some ⟨some "5Q", none⟩, some ⟨none, none⟩⟩⟩]⟩

/-- A pod with no `nodeName` field and one container with an empty requests
block. -/
def podFree : PodItem :=
  ⟨"ns", "free", none, [⟨some ⟨none, some ⟨none, none⟩⟩⟩]⟩

/-- A pod whose `spec.nodeName` is the literal string `"unallocated"`. -/
def podSentinel : PodItem :=
  ⟨"ns", "ghost", some "unallocated", [⟨some ⟨none, some ⟨none, none⟩⟩⟩]⟩

/-- A pod whose only container has no `resources` key at all. -/
def podNoResources : PodItem :=
  ⟨"ns", "nores", some "node-a", [⟨none⟩]⟩

/-- A pod assigned to a node name absent from the node inventory. -/
def podDangling : PodItem :=
  ⟨"ns", "dangle", some "node-b", [⟨some ⟨none, some ⟨none, none⟩⟩⟩]⟩

/-! ## Evaluation lemmas for the concrete quantity strings -/

theorem eval_cpu_4 : convert_cpu_units "4" = .ok 4 := by
  rw [show convert_cpu_units "4" = Except.ok ((((4 : ℕ) : ℤ) : ℚ)) from rfl]
  norm_num

theorem eval_cpu_2 : convert_cpu_units "2" = .ok 2 := by
  rw [show convert_cpu_units "2" = Except.ok ((((2 : ℕ) : ℤ) : ℚ)) from rfl]
  norm_num

theorem eval_cpu_500m : convert_cpu_units "500m" = .ok (1 / 2) := by
  rw [show convert_cpu_units "500m" = Except.ok ((((500 : ℕ) : ℤ) : ℚ) / 1000) from rfl]
  norm_num

theorem eval_mem_8Gi : convert_memory_units "8Gi" = .ok 8192 := by
  rw [show convert_memory_units "8Gi" = Except.ok ((((8 : ℕ) : ℤ) : ℚ) * 1024) from rfl]
  norm_num

theorem eval_mem_256Mi : convert_memory_units "256Mi" = .ok 256 := by
  rw [show convert_memory_units "256Mi" = Except.ok ((((256 : ℕ) : ℤ) : ℚ)) from rfl]
  norm_num

theorem eval_mem_100Mi : convert_memory_units "100Mi" = .ok 100 := by
  rw [show convert_memory_units "100Mi" = Except.ok ((((100 : ℕ) : ℤ) : ℚ)) from rfl]
  norm_num

theorem eval_mem_5Q :
    convert_memory_units "5Q"
      = .error (.assertionError "unsupported units for memory limit: 5Q") := by
  decide

/-- Full evaluation of the spec's end-to-end scenario. -/
theorem run_example :
    resources [nodeA] [podApp]
      = .ok ([("node-a", ⟨1, 512, 1/2, 256, "default", 4, 8192⟩)],
             [("ns/app", ⟨1, 512, 1/2, 256, "node-a"⟩)], []) := by
  norm_num [resources, loadNodes, loadNodesStep, loadPods, loadPodsStep,
    processContainers, containerStep, processLimits, processRequests,
    aggregate, aggregateStep, updateFirst, hasKey, podKey, Totals.zero,
    nodeA, podApp, eval_cpu_4, eval_mem_8Gi, eval_cpu_500m, eval_mem_256Mi,
    show ("ns" ++ "/" ++ "app" : String) = "ns/app" from rfl,
    show ¬("node-a" = "unallocated") from by decide]

/-- The node map produced from `[nodeA]` alone (all accumulators zero). -/
theorem run_loadNodes_nodeA :
    loadNodes [] [nodeA] = .ok [("node-a", ⟨0, 0, 0, 0, "default", 4, 8192⟩)] := by
  norm_num [loadNodes, loadNodesStep, hasKey, nodeA, eval_cpu_4, eval_mem_8Gi]

/-- A pod with no `nodeName` ends up keyed in the unallocated list, with the
sentinel assignment, and the node map unchanged. -/
theorem run_free :
    resources [nodeA] [podFree]
      = .ok ([("node-a", ⟨0, 0, 0, 0, "default", 4, 8192⟩)],
             [("ns/free", ⟨0, 0, 0, 0, "unallocated"⟩)], ["ns/free"]) := by
  norm_num [resources, loadNodes, loadNodesStep, loadPods, loadPodsStep,
    processContainers, containerStep, processLimits, processRequests,
    aggregate, aggregateStep, updateFirst, hasKey, podKey, Totals.zero,
    nodeA, podFree, eval_cpu_4, eval_mem_8Gi,
    show ("ns" ++ "/" ++ "free" : String) = "ns/free" from rfl]

/-- A pod whose `nodeName` is literally `"unallocated"` is silently skipped:
the run succeeds, the unallocated list stays empty, and the node map is
unchanged, although no node called `"unallocated"` exists. -/
theorem run_sentinel :
    resources [nodeA] [podSentinel]
      = .ok ([("node-a", ⟨0, 0, 0, 0, "default", 4, 8192⟩)],
             [("ns/ghost", ⟨0, 0, 0, 0, "unallocated"⟩)], []) := by
  norm_num [resources, loadNodes, loadNodesStep, loadPods, loadPodsStep,
    processContainers, containerStep, processLimits, processRequests,
    aggregate, aggregateStep, updateFirst, hasKey, podKey, Totals.zero,
    nodeA, podSentinel, eval_cpu_4, eval_mem_8Gi,
    show ("ns" ++ "/" ++ "ghost" : String) = "ns/ghost" from rfl]

/-- A repeated node name fails on the bare duplicate-key `assert`. -/
theorem run_dupNodes :
    resources [nodeA, nodeA] [] = .error (.assertionError "") := by
  norm_num [resources, loadNodes, loadNodesStep, hasKey, nodeA,
    eval_cpu_4, eval_mem_8Gi]

/-- A repeated namespaced pod key fails on the bare duplicate-key `assert`. -/
theorem run_dupPods :
    resources [nodeA] [podSentinel, podSentinel] = .error (.assertionError "") := by
  norm_num [resources, loadNodes, loadNodesStep, loadPods, loadPodsStep,
    processContainers, containerStep, processLimits, processRequests,
    hasKey, podKey, Totals.zero, nodeA, podSentinel,
    eval_cpu_4, eval_mem_8Gi,
    show ("ns" ++ "/" ++ "ghost" : String) = "ns/ghost" from rfl]

/-- A pod assigned to a node missing from the inventory fails on the bare
dangling-reference `assert`. -/
theorem run_dangling :
    resources [nodeA] [podDangling] = .error (.assertionError "") := by
  norm_num [resources, loadNodes, loadNodesStep, loadPods, loadPodsStep,
    processContainers, containerStep, processLimits, processRequests,
    aggregate, aggregateStep, hasKey, podKey, Totals.zero,
    nodeA, podDangling, eval_cpu_4, eval_mem_8Gi,
    show ("ns" ++ "/" ++ "dangle" : String) = "ns/dangle" from rfl,
    show ¬("node-b" = "unallocated") from by decide,
    show ¬("node-a" = "node-b") from by decide]

/-- A malformed memory quantity aborts the whole run with the converter's
`AssertionError`; no summary is produced. -/
theorem run_badQuantity :
    resources [nodeA] [podBadQuantity]
      = .error (.assertionError "unsupported units for memory limit: 5Q") := by
  norm_num [resources, loadNodes, loadNodesStep, loadPods, loadPodsStep,
    processContainers, containerStep, processLimits, processRequests,
    hasKey, podKey, Totals.zero, nodeA, podBadQuantity,
    eval_cpu_4, eval_mem_8Gi, eval_mem_5Q]

/-- A container without a `resources` key aborts the run with
`KeyError: 'resources'`. -/
theorem run_noResources :
    resources [nodeA] [podNoResources] = .error (.keyError "resources") := by
  norm_num [resources, loadNodes, loadNodesStep, loadPods, loadPodsStep,
    processContainers, containerStep, hasKey, podKey, Totals.zero,
    nodeA, podNoResources, eval_cpu_4, eval_mem_8Gi]

/-! ## Totals algebra -/

attribute [ext] Totals

@[simp] theorem Totals.add_cpu_request (a b : Totals) :
    (a + b).cpu_request = a.cpu_request + b.cpu_request := rfl

@[simp] theorem Totals.add_memory_request (a b : Totals) :
    (a + b).memory_request = a.memory_request + b.memory_request := rfl

@[simp] theorem Totals.add_cpu_limit (a b : Totals) :
    (a + b).cpu_limit = a.cpu_limit + b.cpu_limit := rfl

@[simp] theorem Totals.add_memory_limit (a b : Totals) :
    (a + b).memory_limit = a.memory_limit + b.memory_limit := rfl

@[simp] theorem Totals.zero_cpu_request : Totals.zero.cpu_request = 0 := rfl

@[simp] theorem Totals.zero_memory_request : Totals.zero.memory_request = 0 := rfl

@[simp] theorem Totals.zero_cpu_limit : Totals.zero.cpu_limit = 0 := rfl

@[simp] theorem Totals.zero_memory_limit : Totals.zero.memory_limit = 0 := rfl

theorem Totals.zero_add (a : Totals) : Totals.zero + a = a := by
  ext <;> simp

theorem Totals.add_zero (a : Totals) : a + Totals.zero = a := by
  ext <;> simp

theorem Totals.add_assoc (a b c : Totals) : a + b + c = a + (b + c) := by
  ext <;> simp <;> ring

theorem Totals.add_comm (a b : Totals) : a + b = b + a := by
  ext <;> simp <;> ring

/-! ## Sum lemmas -/

@[simp] theorem nodeSums_nil : nodeSums [] = Totals.zero := rfl

@[simp] theorem nodeSums_cons (p : String × NodeRec) (l : NodeMap) :
    nodeSums (p :: l) = nodeTotals p.2 + nodeSums l := rfl

@[simp] theorem podSumsAlloc_nil : podSumsAlloc [] = Totals.zero := rfl

@[simp] theorem podSumsAlloc_cons (p : String × PodRec) (l : PodMap) :
    podSumsAlloc (p :: l)
      = (if p.2.node_name == "unallocated" then Totals.zero else podTotals p.2)
        + podSumsAlloc l := rfl

theorem nodeSums_append (l1 l2 : NodeMap) :
    nodeSums (l1 ++ l2) = nodeSums l1 + nodeSums l2 := by
  induction l1 with
  | nil => simp [Totals.zero_add]
  | cons p rest ih => simp [ih, Totals.add_assoc]

/-- Updating the record stored under a present key by a totals-shifting
function shifts the map's accumulator sum by the same amount. -/
theorem nodeSums_updateFirst (k : String) (d : Totals) (f : NodeRec → NodeRec)
    (hf : ∀ n, nodeTotals (f n) = nodeTotals n + d) :
    ∀ l : NodeMap, hasKey l k = true →
      nodeSums (updateFirst k f l) = nodeSums l + d := by
  intro l
  induction l with
  | nil => intro h; simp [hasKey] at h
  | cons p rest ih =>
    intro hk
    by_cases hpk : (p.1 == k) = true
    · simp only [updateFirst, if_pos hpk, nodeSums_cons, hf]
      ext <;> simp <;> ring
    · have hk2 : hasKey rest k = true := by
        simp only [hasKey, List.any_cons, Bool.or_eq_true] at hk
        rcases hk with h | h
        · exact absurd h hpk
        · exact h
      rw [Bool.not_eq_true] at hpk
      simp only [updateFirst, hpk, if_neg Bool.false_ne_true, nodeSums_cons,
        ih hk2, Totals.add_assoc]

/-- One aggregation step adds the pod's totals to the node-map sum, except
for pods assigned `"unallocated"`, which leave it unchanged. -/
theorem nodeSums_aggregateStep (nodes nodes2 : NodeMap) (pod : String × PodRec)
    (h : aggregateStep nodes pod = .ok nodes2) :
    nodeSums nodes2 = nodeSums nodes
      + (if pod.2.node_name == "unallocated" then Totals.zero else podTotals pod.2) := by
  unfold aggregateStep at h
  by_cases h1 : (pod.2.node_name == "unallocated") = true
  · simp only [h1, if_true] at h ⊢
    injection h with h
    rw [← h, Totals.add_zero]
  · rw [Bool.not_eq_true] at h1
    simp only [h1, Bool.false_eq_true, if_false] at h ⊢
    by_cases h2 : hasKey nodes pod.2.node_name = true
    · rw [if_pos h2] at h
      injection h with h
      rw [← h]
      refine nodeSums_updateFirst _ _ _ ?_ nodes h2
      intro n
      ext <;> simp [nodeTotals, podTotals]
    · rw [if_neg h2] at h
      exact absurd h (by simp)

/-- Folding the pod map into the node map adds exactly the totals of the
pods not assigned `"unallocated"`. -/
theorem nodeSums_aggregate :
    ∀ (pods : PodMap) (nodes final : NodeMap),
      aggregate nodes pods = .ok final →
      nodeSums final = nodeSums nodes + podSumsAlloc pods := by
  intro pods
  induction pods with
  | nil =>
    intro nodes final h
    injection h with h
    rw [← h]
    simp [Totals.add_zero]
  | cons pod rest ih =>
    intro nodes final h
    unfold aggregate at h
    cases hstep : aggregateStep nodes pod with
    | error e => rw [hstep] at h; exact absurd h (by simp)
    | ok nodes2 =>
      rw [hstep] at h
      rw [ih nodes2 final h, nodeSums_aggregateStep nodes nodes2 pod hstep,
        podSumsAlloc_cons, Totals.add_assoc]

/-- Loading node inventory only appends zero-seeded records: the accumulator
sum of the result equals that of the initial map. -/
theorem nodeSums_loadNodes :
    ∀ (items : List NodeItem) (acc out : NodeMap),
      loadNodes acc items = .ok out → nodeSums out = nodeSums acc := by
  intro items
  induction items with
  | nil =>
    intro acc out h
    injection h with h
    rw [← h]
  | cons item rest ih =>
    intro acc out h
    unfold loadNodes at h
    cases hstep : loadNodesStep acc item with
    | error e => rw [hstep] at h; exact absurd h (by simp)
    | ok acc2 =>
      rw [hstep] at h
      rw [ih acc2 out h]
      unfold loadNodesStep at hstep
      by_cases h1 : hasKey acc item.name = true
      · simp only [h1, if_true] at hstep
        exact absurd hstep (by simp)
      · rw [if_neg h1] at hstep
        cases hp : item.node_pool with
        | none => rw [hp] at hstep; exact absurd hstep (by simp)
        | some pool =>
          rw [hp] at hstep
          cases hc : convert_cpu_units item.cpu with
          | error e => rw [hc] at hstep; exact absurd hstep (by simp)
          | ok cpuAlloc =>
            rw [hc] at hstep
            cases hm : convert_memory_units item.memory with
            | error e => rw [hm] at hstep; exact absurd hstep (by simp)
            | ok memAlloc =>
              rw [hm] at hstep
              injection hstep with hstep
              rw [← hstep, nodeSums_append]
              simp [nodeTotals, Totals.add_zero]
              ext <;> simp [nodeTotals]

/-- C2: on the spec's end-to-end scenario — one node `"node-a"` (allocatable
cpu `"4"`, memory `"8Gi"`, pool `"default"`) and one pod `"ns/app"` on
`"node-a"` whose first container requests `"500m"` CPU / `"256Mi"` memory
with no limits block and whose second container has no requests block — the
final aggregate for `"node-a"` is cpu_request = 1/2, memory_request = 256,
cpu_limit = 1, memory_limit = 512. -/
theorem claim_C2 :
    resources [nodeA] [podApp]
      = .ok ([("node-a", ⟨1, 512, 1/2, 256, "default", 4, 8192⟩)],
             [("ns/app", ⟨1, 512, 1/2, 256, "node-a"⟩)], []) :=
  run_example

/-- C3: whenever the run succeeds, the componentwise sum of the four
aggregated accumulators over all nodes equals the sum of the corresponding
totals over all pods whose assigned node is not `"unallocated"`. -/
theorem claim_C3 (nd : List NodeItem) (pd : List PodItem)
    (final : NodeMap) (pods : PodMap) (unalloc : List String)
    (h : resources nd pd = .ok (final, pods, unalloc)) :
    nodeSums final = podSumsAlloc pods := by
  unfold resources at h
  split at h
  · exact absurd h (by simp)
  next nodes_resources h1 =>
    split at h
    · exact absurd h (by simp)
    next st h2 =>
      split at h
      · exact absurd h (by simp)
      next fin h3 =>
        injection h with h
        obtain ⟨h4, h5, h6⟩ : fin = final ∧ st.1 = pods ∧ st.2 = unalloc := by
          simpa [Prod.ext_iff] using h
        rw [← h4, ← h5,
          nodeSums_aggregate st.1 nodes_resources fin h3,
          nodeSums_loadNodes nd [] nodes_resources h1,
          nodeSums_nil, Totals.zero_add]

theorem claim_C3_witness :
    nodeSums [("node-a", ⟨1, 512, 1/2, 256, "default", 4, 8192⟩)]
      = podSumsAlloc [("ns/app", ⟨1, 512, 1/2, 256, "node-a"⟩)] :=
  claim_C3 [nodeA] [podApp] _ _ _ run_example

/-- Processing a container's `limits` block never changes the request
totals. -/
theorem processLimits_requests (t : Totals) (res : ContainerResources) (t1 : Totals)
    (h : processLimits t res = .ok t1) :
    t1.cpu_request = t.cpu_request ∧ t1.memory_request = t.memory_request := by
  rcases res with ⟨limits, requests⟩
  rcases limits with _ | ⟨mem, cpu⟩
  · simp [processLimits] at h
    rw [← h]; exact ⟨rfl, rfl⟩
  · rcases mem with _ | m <;> rcases cpu with _ | c
    · simp [processLimits] at h
      rw [← h]; exact ⟨rfl, rfl⟩
    · cases hc : convert_cpu_units c with
      | error e => simp [processLimits, hc] at h
      | ok v =>
        simp [processLimits, hc] at h
        rw [← h]; exact ⟨rfl, rfl⟩
    · cases hm : convert_memory_units m with
      | error e => simp [processLimits, hm] at h
      | ok v =>
        simp [processLimits, hm] at h
        rw [← h]; exact ⟨rfl, rfl⟩
    · cases hm : convert_memory_units m with
      | error e => simp [processLimits, hm] at h
      | ok v =>
        cases hc : convert_cpu_units c with
        | error e => simp [processLimits, hm, hc] at h
        | ok w =>
          simp [processLimits, hm, hc] at h
          rw [← h]; exact ⟨rfl, rfl⟩

/-- C1 (counterexample): a container with limits cpu `"2"` / memory
`"100Mi"` and no requests block contributes 3 CPU and 612 MiB to the pod's
limit totals — not "exactly 1 CPU and 512 MiB": its explicit limits are
processed, not skipped, and the default is added on top. -/
theorem claim_C1_counterexample :
    processContainers Totals.zero podLimitsNoRequests.containers = .ok ⟨0, 0, 3, 612⟩
      ∧ ¬((3 : ℚ) = 1 ∧ (612 : ℚ) = 512) := by
  constructor
  · norm_num [processContainers, containerStep, processLimits, Totals.zero,
      podLimitsNoRequests, eval_mem_100Mi, eval_cpu_2]
  · norm_num

/-- C1 (amended): a container whose `resources` mapping has no `requests`
block first has any explicit `limits` processed normally, then adds the
fixed default of 1 CPU and 512 MiB to the pod's limit totals, and adds
nothing to the request totals. -/
theorem claim_C1_amended (t : Totals) (c : ContainerData) (res : ContainerResources)
    (hres : c.resources = some res) (hreq : res.requests = none)
    (t1 : Totals) (hlim : processLimits t res = .ok t1) :
    containerStep t c
        = .ok { t1 with cpu_limit := t1.cpu_limit + 1,
                        memory_limit := t1.memory_limit + 512 }
      ∧ t1.cpu_request = t.cpu_request ∧ t1.memory_request = t.memory_request := by
  refine ⟨?_, processLimits_requests t res t1 hlim⟩
  rcases c with ⟨cres⟩
  rw [show (ContainerData.mk cres).resources = cres from rfl] at hres
  subst hres
  simp only [containerStep, hlim, hreq]

/-- The limits-only example container evaluates to 2 CPU / 100 MiB of limit
totals before the default is applied. -/
theorem eval_processLimits_ex :
    processLimits Totals.zero ⟨some ⟨some "100Mi", some "2"⟩, none⟩
      = .ok ⟨0, 0, 2, 100⟩ := by
  norm_num [processLimits, Totals.zero, eval_mem_100Mi, eval_cpu_2]

theorem claim_C1_amended_witness :
    containerStep Totals.zero ⟨some ⟨some ⟨some "100Mi", some "2"⟩, none⟩⟩
        = .ok ⟨0, 0, 2 + 1, 100 + 512⟩
      ∧ (0 : ℚ) = 0 ∧ (0 : ℚ) = 0 :=
  claim_C1_amended Totals.zero ⟨some ⟨some ⟨some "100Mi", some "2"⟩, none⟩⟩
    ⟨some ⟨some "100Mi", some "2"⟩, none⟩ rfl rfl ⟨0, 0, 2, 100⟩ eval_processLimits_ex

/-! ## Converter branch analysis -/

/-- `pyInt` on a nonempty all-digits string returns the denoted value. -/
theorem pyInt_digits (s : String)
    (h : (!s.data.isEmpty && s.data.all Char.isDigit) = true) :
    pyInt s = .ok (strDigitsVal s : ℤ) := by
  unfold pyInt
  rw [if_pos h]

/-- An all-digits string never ends with the letter `m`. -/
theorem digits_not_endsWith_m (s : String)
    (h : s.data.all Char.isDigit = true) : strEndsWith s "m" = false := by
  unfold strEndsWith
  cases hrev : s.data.reverse with
  | nil => decide
  | cons c rest =>
    have hc : c ∈ s.data := by
      have hm : c ∈ s.data.reverse := by
        rw [hrev]; exact List.mem_cons_self c rest
      exact List.mem_reverse.mp hm
    have hcd : c.isDigit = true := by
      rw [List.all_eq_true] at h
      exact h c hc
    have hne : (Char.ofNat 109 == c) = false := by
      cases heq : Char.ofNat 109 == c
      · rfl
      · exfalso
        have hce : Char.ofNat 109 = c := eq_of_beq heq
        rw [← hce] at hcd
        exact absurd hcd (by decide)
    simp [List.isPrefixOf, hne,
      show ("m".data.reverse : List Char) = [Char.ofNat 109] from by decide]

/-- `convert_cpu_units` on `<digits>m` takes the millicore branch. -/
theorem convert_cpu_m (s : String) :
    convert_cpu_units (s ++ "m") = (pyInt s).map (fun n => (n : ℚ) / 1000) := by
  have h1 : strEndsWith (s ++ "m") "m" = true := by
    simp [strEndsWith, String.data_append, List.isPrefixOf]
  have h2 : strDropRight (s ++ "m") 1 = s := by
    simp [strDropRight, String.data_append]
  simp [convert_cpu_units, h1, h2]

/-- `convert_cpu_units` on an all-digits string takes the whole-core
branch. -/
theorem convert_cpu_bare (s : String) (h : s.data.all Char.isDigit = true) :
    convert_cpu_units s = (pyInt s).map (fun n => (n : ℚ)) := by
  simp [convert_cpu_units, digits_not_endsWith_m s h]

/-- `convert_memory_units` on `<prefix>Mi` takes the `Mi` branch. -/
theorem convert_memory_Mi (s : String) :
    convert_memory_units (s ++ "Mi") = (pyInt s).map (fun n => (n : ℚ)) := by
  have h1 : strEndsWith (s ++ "Mi") "Mi" = true := by
    simp [strEndsWith, String.data_append, List.isPrefixOf]
  have h2 : strDropRight (s ++ "Mi") 2 = s := by
    simp [strDropRight, String.data_append]
  simp [convert_memory_units, h1, h2]

/-- `convert_memory_units` on `<prefix>M` takes the `M` branch. -/
theorem convert_memory_M (s : String) :
    convert_memory_units (s ++ "M")
      = (pyInt s).map (fun n => (n : ℚ) * 1000000 / 1024 ^ 2) := by
  have h1 : strEndsWith (s ++ "M") "Mi" = false := by
    simp [strEndsWith, String.data_append, List.isPrefixOf]
  have h2 : strEndsWith (s ++ "M") "M" = true := by
    simp [strEndsWith, String.data_append, List.isPrefixOf]
  have h3 : strDropRight (s ++ "M") 1 = s := by
    simp [strDropRight, String.data_append]
  simp [convert_memory_units, h1, h2, h3]

/-- `convert_memory_units` on `<prefix>Gi` takes the `Gi` branch. -/
theorem convert_memory_Gi (s : String) :
    convert_memory_units (s ++ "Gi")
      = (pyInt s).map (fun n => (n : ℚ) * 1024) := by
  have h1 : strEndsWith (s ++ "Gi") "Mi" = false := by
    simp [strEndsWith, String.data_append, List.isPrefixOf]
  have h2 : strEndsWith (s ++ "Gi") "M" = false := by
    simp [strEndsWith, String.data_append, List.isPrefixOf]
  have h3 : strEndsWith (s ++ "Gi") "Gi" = true := by
    simp [strEndsWith, String.data_append, List.isPrefixOf]
  have h4 : strDropRight (s ++ "Gi") 2 = s := by
    simp [strDropRight, String.data_append]
  simp [convert_memory_units, h1, h2, h3, h4]

/-- `convert_memory_units` on `<prefix>G` takes the `G` branch. -/
theorem convert_memory_G (s : String) :
    convert_memory_units (s ++ "G")
      = (pyInt s).map (fun n => (n : ℚ) * 1000 ^ 3 / 1024 ^ 3) := by
  have h1 : strEndsWith (s ++ "G") "Mi" = false := by
    simp [strEndsWith, String.data_append, List.isPrefixOf]
  have h2 : strEndsWith (s ++ "G") "M" = false := by
    simp [strEndsWith, String.data_append, List.isPrefixOf]
  have h3 : strEndsWith (s ++ "G") "Gi" = false := by
    simp [strEndsWith, String.data_append, List.isPrefixOf]
  have h4 : strEndsWith (s ++ "G") "G" = true := by
    simp [strEndsWith, String.data_append, List.isPrefixOf]
  have h5 : strDropRight (s ++ "G") 1 = s := by
    simp [strDropRight, String.data_append]
  simp [convert_memory_units, h1, h2, h3, h4, h5]

/-- `convert_memory_units` on `<prefix>Ki` takes the `Ki` branch. -/
theorem convert_memory_Ki (s : String) :
    convert_memory_units (s ++ "Ki")
      = (pyInt s).map (fun n => (n : ℚ) / 1024) := by
  have h1 : strEndsWith (s ++ "Ki") "Mi" = false := by
    simp [strEndsWith, String.data_append, List.isPrefixOf]
  have h2 : strEndsWith (s ++ "Ki") "M" = false := by
    simp [strEndsWith, String.data_append, List.isPrefixOf]
  have h3 : strEndsWith (s ++ "Ki") "Gi" = false := by
    simp [strEndsWith, String.data_append, List.isPrefixOf]
  have h4 : strEndsWith (s ++ "Ki") "G" = false := by
    simp [strEndsWith, String.data_append, List.isPrefixOf]
  have h5 : strEndsWith (s ++ "Ki") "Ki" = true := by
    simp [strEndsWith, String.data_append, List.isPrefixOf]
  have h6 : strDropRight (s ++ "Ki") 2 = s := by
    simp [strDropRight, String.data_append]
  simp [convert_memory_units, h1, h2, h3, h4, h5, h6]

/-- `convert_memory_units` on `<prefix>K` takes the `K` branch. -/
theorem convert_memory_K (s : String) :
    convert_memory_units (s ++ "K")
      = (pyInt s).map (fun n => (n : ℚ) * 1000 / 1024 ^ 2) := by
  have h1 : strEndsWith (s ++ "K") "Mi" = false := by
    simp [strEndsWith, String.data_append, List.isPrefixOf]
  have h2 : strEndsWith (s ++ "K") "M" = false := by
    simp [strEndsWith, String.data_append, List.isPrefixOf]
  have h3 : strEndsWith (s ++ "K") "Gi" = false := by
    simp [strEndsWith, String.data_append, List.isPrefixOf]
  have h4 : strEndsWith (s ++ "K") "G" = false := by
    simp [strEndsWith, String.data_append, List.isPrefixOf]
  have h5 : strEndsWith (s ++ "K") "Ki" = false := by
    simp [strEndsWith, String.data_append, List.isPrefixOf]
  have h6 : strEndsWith (s ++ "K") "K" = true := by
    simp [strEndsWith, String.data_append, List.isPrefixOf]
  have h7 : strDropRight (s ++ "K") 1 = s := by
    simp [strDropRight, String.data_append]
  simp [convert_memory_units, h1, h2, h3, h4, h5, h6, h7]

/-- C4: the converters follow the section 4.1 tables — `<digits>m` gives
the integer over 1000, a bare integer is returned unchanged, and each memory
suffix scales the integer prefix as tabulated (Ki: /1024, K: ×1000/1024²,
Mi: identity, M: ×1000000/1024², Gi: ×1024, G: ×1000³/1024³); in particular
`convert_memory_units "1Gi" = 1024`, `"1024Mi"` equals `"1Gi"`, `"1000M"`
equals 1000 times `"1M"`, and fractional results such as `"1Ki" = 1/1024`
are preserved exactly. -/
theorem claim_C4 (s : String)
    (h : (!s.data.isEmpty && s.data.all Char.isDigit) = true) :
    convert_cpu_units (s ++ "m") = .ok ((strDigitsVal s : ℚ) / 1000)
  ∧ convert_cpu_units s = .ok (strDigitsVal s : ℚ)
  ∧ convert_memory_units (s ++ "Ki") = .ok ((strDigitsVal s : ℚ) / 1024)
  ∧ convert_memory_units (s ++ "K") = .ok ((strDigitsVal s : ℚ) * 1000 / 1024 ^ 2)
  ∧ convert_memory_units (s ++ "Mi") = .ok (strDigitsVal s : ℚ)
  ∧ convert_memory_units (s ++ "M") = .ok ((strDigitsVal s : ℚ) * 1000000 / 1024 ^ 2)
  ∧ convert_memory_units (s ++ "Gi") = .ok ((strDigitsVal s : ℚ) * 1024)
  ∧ convert_memory_units (s ++ "G") = .ok ((strDigitsVal s : ℚ) * 1000 ^ 3 / 1024 ^ 3)
  ∧ convert_memory_units "1Gi" = .ok 1024
  ∧ convert_memory_units "1024Mi" = .ok 1024
  ∧ convert_memory_units "1M" = .ok (15625 / 16384)
  ∧ convert_memory_units "1000M" = .ok (15625 / 16384 * 1000)
  ∧ convert_memory_units "1Ki" = .ok (1 / 1024) := by
  have hd : s.data.all Char.isDigit = true := by
    rw [Bool.and_eq_true] at h
    exact h.2
  have hp := pyInt_digits s h
  refine ⟨?_, ?_, ?_, ?_, ?_, ?_, ?_, ?_, ?_, ?_, ?_, ?_, ?_⟩
  · rw [convert_cpu_m, hp]
    simp [Except.map, Int.cast_natCast]
  · rw [convert_cpu_bare s hd, hp]
    simp [Except.map, Int.cast_natCast]
  · rw [convert_memory_Ki, hp]
    simp [Except.map, Int.cast_natCast]
  · rw [convert_memory_K, hp]
    simp [Except.map, Int.cast_natCast]
  · rw [convert_memory_Mi, hp]
    simp [Except.map, Int.cast_natCast]
  · rw [convert_memory_M, hp]
    simp [Except.map, Int.cast_natCast]
  · rw [convert_memory_Gi, hp]
    simp [Except.map, Int.cast_natCast]
  · rw [convert_memory_G, hp]
    simp [Except.map, Int.cast_natCast]
  · rw [show convert_memory_units "1Gi"
        = Except.ok ((((1 : ℕ) : ℤ) : ℚ) * 1024) from rfl]
    norm_num
  · rw [show convert_memory_units "1024Mi"
        = Except.ok ((((1024 : ℕ) : ℤ) : ℚ)) from rfl]
    norm_num
  · rw [show convert_memory_units "1M"
        = Except.ok ((((1 : ℕ) : ℤ) : ℚ) * 1000000 / 1024 ^ 2) from rfl]
    norm_num
  · rw [show convert_memory_units "1000M"
        = Except.ok ((((1000 : ℕ) : ℤ) : ℚ) * 1000000 / 1024 ^ 2) from rfl]
    norm_num
  · rw [show convert_memory_units "1Ki"
        = Except.ok ((((1 : ℕ) : ℤ) : ℚ) / 1024) from rfl]
    norm_num

theorem claim_C4_witness :
    convert_cpu_units ("5" ++ "m") = .ok ((strDigitsVal "5" : ℚ) / 1000)
  ∧ convert_cpu_units "5" = .ok (strDigitsVal "5" : ℚ)
  ∧ convert_memory_units ("5" ++ "Ki") = .ok ((strDigitsVal "5" : ℚ) / 1024)
  ∧ convert_memory_units ("5" ++ "K") = .ok ((strDigitsVal "5" : ℚ) * 1000 / 1024 ^ 2)
  ∧ convert_memory_units ("5" ++ "Mi") = .ok (strDigitsVal "5" : ℚ)
  ∧ convert_memory_units ("5" ++ "M") = .ok ((strDigitsVal "5" : ℚ) * 1000000 / 1024 ^ 2)
  ∧ convert_memory_units ("5" ++ "Gi") = .ok ((strDigitsVal "5" : ℚ) * 1024)
  ∧ convert_memory_units ("5" ++ "G") = .ok ((strDigitsVal "5" : ℚ) * 1000 ^ 3 / 1024 ^ 3)
  ∧ convert_memory_units "1Gi" = .ok 1024
  ∧ convert_memory_units "1024Mi" = .ok 1024
  ∧ convert_memory_units "1M" = .ok (15625 / 16384)
  ∧ convert_memory_units "1000M" = .ok (15625 / 16384 * 1000)
  ∧ convert_memory_units "1Ki" = .ok (1 / 1024) :=
  claim_C4 "5" (by decide)

/-- C5: a quantity string whose trailing suffix is recognised by neither
converter (and which is not a bare integer) makes `convert_memory_units`
raise the converter's `AssertionError` and `convert_cpu_units` raise
`int()`'s `ValueError` — neither ever returns a numeric value — and a run
containing such a string (here `"5Q"`) aborts with that error and produces
no aggregation. -/
theorem claim_C5 (s : String)
    (h1 : strEndsWith s "Mi" = false) (h2 : strEndsWith s "M" = false)
    (h3 : strEndsWith s "Gi" = false) (h4 : strEndsWith s "G" = false)
    (h5 : strEndsWith s "Ki" = false) (h6 : strEndsWith s "K" = false)
    (h7 : strEndsWith s "m" = false)
    (h8 : (!s.data.isEmpty && s.data.all Char.isDigit) = false) :
    convert_memory_units s
        = .error (.assertionError ("unsupported units for memory limit: " ++ s))
      ∧ convert_cpu_units s
        = .error (.valueError ("invalid literal for int() with base 10: '" ++ s ++ "'"))
      ∧ resources [nodeA] [podBadQuantity]
        = .error (.assertionError "unsupported units for memory limit: 5Q") := by
  refine ⟨?_, ?_, run_badQuantity⟩
  · simp [convert_memory_units, h1, h2, h3, h4, h5, h6]
  · simp [convert_cpu_units, h7, pyInt, h8, Except.map]

theorem claim_C5_witness :
    convert_memory_units "5Q"
        = .error (.assertionError "unsupported units for memory limit: 5Q")
      ∧ convert_cpu_units "5Q"
        = .error (.valueError "invalid literal for int() with base 10: '5Q'")
      ∧ resources [nodeA] [podBadQuantity]
        = .error (.assertionError "unsupported units for memory limit: 5Q") :=
  claim_C5 "5Q" (by decide) (by decide) (by decide) (by decide) (by decide)
    (by decide) (by decide) (by decide)

/-! ## Structure of successful loads -/

/-- A key not found by `hasKey` is not among the map's keys. -/
theorem hasKey_false {α : Type} (m : List (String × α)) (k : String)
    (h : hasKey m k = false) : k ∉ m.map Prod.fst := by
  intro hmem
  rw [List.mem_map] at hmem
  obtain ⟨p, hp, hk⟩ := hmem
  have : hasKey m k = true := by
    rw [hasKey, List.any_eq_true]
    exact ⟨p, hp, by rw [hk, beq_self_eq_true]⟩
  rw [h] at this
  exact absurd this (by simp)

/-- A successful node step appends exactly one record under a fresh name. -/
theorem loadNodesStep_ok (acc acc2 : NodeMap) (item : NodeItem)
    (h : loadNodesStep acc item = .ok acc2) :
    hasKey acc item.name = false
      ∧ ∃ r : NodeRec, acc2 = acc ++ [(item.name, r)] := by
  by_cases hk : hasKey acc item.name = true
  · exfalso
    unfold loadNodesStep at h
    rw [if_pos hk] at h
    exact absurd h (by simp)
  · have hkf : hasKey acc item.name = false := by rwa [Bool.not_eq_true] at hk
    refine ⟨hkf, ?_⟩
    unfold loadNodesStep at h
    rw [if_neg hk] at h
    cases hp : item.node_pool with
    | none => rw [hp] at h; exact absurd h (by simp)
    | some pool =>
      rw [hp] at h
      cases hc : convert_cpu_units item.cpu with
      | error e => rw [hc] at h; exact absurd h (by simp)
      | ok cpuAlloc =>
        rw [hc] at h
        cases hm : convert_memory_units item.memory with
        | error e => rw [hm] at h; exact absurd h (by simp)
        | ok memAlloc =>
          rw [hm] at h
          injection h with h
          exact ⟨_, h.symm⟩

/-- A successful load keeps the existing keys distinct and only appends the
fresh node names, so success forces all names to be pairwise distinct. -/
theorem loadNodes_nodup :
    ∀ (items : List NodeItem) (acc out : NodeMap),
      loadNodes acc items = .ok out →
      (acc.map Prod.fst).Nodup →
      ((acc.map Prod.fst) ++ items.map NodeItem.name).Nodup := by
  intro items
  induction items with
  | nil =>
    intro acc out h hacc
    simpa using hacc
  | cons item rest ih =>
    intro acc out h hacc
    unfold loadNodes at h
    cases hstep : loadNodesStep acc item with
    | error e => rw [hstep] at h; exact absurd h (by simp)
    | ok acc2 =>
      rw [hstep] at h
      obtain ⟨hfresh, r, hacc2⟩ := loadNodesStep_ok acc acc2 item hstep
      have hnotin := hasKey_false acc item.name hfresh
      have hkeys : acc2.map Prod.fst = acc.map Prod.fst ++ [item.name] := by
        rw [hacc2]; simp
      have hacc2nodup : (acc2.map Prod.fst).Nodup := by
        rw [hkeys, List.nodup_append]
        exact ⟨hacc, List.nodup_singleton _, by
          intro a ha hb
          rw [List.mem_singleton] at hb
          rw [hb] at ha
          exact hnotin ha⟩
      have := ih acc2 out h hacc2nodup
      rw [hkeys, List.append_assoc, List.singleton_append] at this
      exact this

/-- A successful pod step appends exactly one record under a fresh
namespaced key; a missing `nodeName` also appends the key to the
unallocated list, a present `nodeName` leaves that list unchanged. -/
theorem loadPodsStep_ok (st st2 : PodMap × List String) (pod : PodItem)
    (h : loadPodsStep st pod = .ok st2) :
    hasKey st.1 (podKey pod) = false
      ∧ ∃ r : PodRec,
          st2.1 = st.1 ++ [(podKey pod, r)]
          ∧ ((pod.nodeName = none ∧ r.node_name = "unallocated"
                ∧ st2.2 = st.2 ++ [podKey pod])
             ∨ (∃ n, pod.nodeName = some n ∧ r.node_name = n ∧ st2.2 = st.2)) := by
  by_cases hk : hasKey st.1 (podKey pod) = true
  · exfalso
    simp [loadPodsStep, hk] at h
  · have hkf : hasKey st.1 (podKey pod) = false := by rwa [Bool.not_eq_true] at hk
    refine ⟨hkf, ?_⟩
    rcases st2 with ⟨pods2, unalloc2⟩
    cases hpc : processContainers Totals.zero pod.containers with
    | error e =>
      exfalso
      simp [loadPodsStep, hkf, hpc] at h
    | ok t =>
      cases hn : pod.nodeName with
      | none =>
        simp [loadPodsStep, hkf, hpc, hn] at h
        obtain ⟨hpods, hunalloc⟩ := h
        exact ⟨⟨t.cpu_limit, t.memory_limit, t.cpu_request, t.memory_request,
          "unallocated"⟩, hpods.symm, Or.inl ⟨rfl, rfl, hunalloc.symm⟩⟩
      | some n =>
        simp [loadPodsStep, hkf, hpc, hn] at h
        obtain ⟨hpods, hunalloc⟩ := h
        exact ⟨⟨t.cpu_limit, t.memory_limit, t.cpu_request, t.memory_request, n⟩,
          hpods.symm, Or.inr ⟨n, rfl, rfl, hunalloc.symm⟩⟩

/-- Entries of the pod map and of the unallocated list persist through the
rest of a successful pod load. -/
theorem loadPods_mono :
    ∀ (items : List PodItem) (st out : PodMap × List String),
      loadPods st items = .ok out →
      (∀ x, x ∈ st.1 → x ∈ out.1) ∧ (∀ k, k ∈ st.2 → k ∈ out.2) := by
  intro items
  induction items with
  | nil =>
    intro st out h
    injection h with h
    rw [← h]
    exact ⟨fun x hx => hx, fun k hk => hk⟩
  | cons pod rest ih =>
    intro st out h
    unfold loadPods at h
    cases hstep : loadPodsStep st pod with
    | error e => rw [hstep] at h; exact absurd h (by simp)
    | ok st2 =>
      rw [hstep] at h
      obtain ⟨ihp, ihu⟩ := ih st2 out h
      obtain ⟨-, r, hpods, hcases⟩ := loadPodsStep_ok st st2 pod hstep
      constructor
      · intro x hx
        exact ihp x (by rw [hpods]; exact List.mem_append_left _ hx)
      · intro k hk
        rcases hcases with ⟨-, -, hu⟩ | ⟨n, -, -, hu⟩
        · exact ihu k (by rw [hu]; exact List.mem_append_left _ hk)
        · exact ihu k (by rw [hu]; exact hk)

/-- A successful pod load keeps the existing keys distinct and only appends
fresh namespaced keys, so success forces all pod keys to be pairwise
distinct. -/
theorem loadPods_nodup :
    ∀ (items : List PodItem) (st out : PodMap × List String),
      loadPods st items = .ok out →
      (st.1.map Prod.fst).Nodup →
      ((st.1.map Prod.fst) ++ items.map podKey).Nodup := by
  intro items
  induction items with
  | nil =>
    intro st out h hst
    simpa using hst
  | cons pod rest ih =>
    intro st out h hst
    unfold loadPods at h
    cases hstep : loadPodsStep st pod with
    | error e => rw [hstep] at h; exact absurd h (by simp)
    | ok st2 =>
      rw [hstep] at h
      obtain ⟨hfresh, r, hpods, -⟩ := loadPodsStep_ok st st2 pod hstep
      have hnotin := hasKey_false st.1 (podKey pod) hfresh
      have hkeys : st2.1.map Prod.fst = st.1.map Prod.fst ++ [podKey pod] := by
        rw [hpods]; simp
      have hst2 : (st2.1.map Prod.fst).Nodup := by
        rw [hkeys, List.nodup_append]
        exact ⟨hst, List.nodup_singleton _, by
          intro a ha hb
          rw [List.mem_singleton] at hb
          rw [hb] at ha
          exact hnotin ha⟩
      have := ih st2 out h hst2
      rw [hkeys, List.append_assoc, List.singleton_append] at this
      exact this

/-- A successful run forces the node names and the namespaced pod keys of
the input documents to be pairwise distinct. -/
theorem resources_ok_nodup (nd : List NodeItem) (pd : List PodItem)
    (r : NodeMap × PodMap × List String) (h : resources nd pd = .ok r) :
    (nd.map NodeItem.name).Nodup ∧ (pd.map podKey).Nodup := by
  unfold resources at h
  split at h
  · exact absurd h (by simp)
  next nodes_resources h1 =>
    split at h
    · exact absurd h (by simp)
    next st h2 =>
      constructor
      · have := loadNodes_nodup nd [] nodes_resources h1 (by simp)
        simpa using this
      · have := loadPods_nodup pd ([], []) st h2 (by simp)
        simpa using this

/-- C6: a node name appearing twice in the node items, or a namespaced pod
key appearing twice in the pod items, makes the run fail; at concrete such
inputs the failure is the bare duplicate-key `AssertionError`. -/
theorem claim_C6 :
    (∀ (nd : List NodeItem) (pd : List PodItem),
        ¬(nd.map NodeItem.name).Nodup → ∃ e, resources nd pd = .error e)
  ∧ (∀ (nd : List NodeItem) (pd : List PodItem),
        ¬(pd.map podKey).Nodup → ∃ e, resources nd pd = .error e)
  ∧ resources [nodeA, nodeA] [] = .error (.assertionError "")
  ∧ resources [nodeA] [podSentinel, podSentinel] = .error (.assertionError "") := by
  refine ⟨?_, ?_, run_dupNodes, run_dupPods⟩
  · intro nd pd hdup
    cases hres : resources nd pd with
    | error e => exact ⟨e, rfl⟩
    | ok r => exact absurd (resources_ok_nodup nd pd r hres).1 hdup
  · intro nd pd hdup
    cases hres : resources nd pd with
    | error e => exact ⟨e, rfl⟩
    | ok r => exact absurd (resources_ok_nodup nd pd r hres).2 hdup

theorem claim_C6_witness :
    (∃ e, resources [nodeA, nodeA] [] = .error e)
  ∧ (∃ e, resources [nodeA] [podSentinel, podSentinel] = .error e) :=
  ⟨claim_C6.1 [nodeA, nodeA] [] (by decide),
   claim_C6.2.1 [nodeA] [podSentinel, podSentinel] (by decide)⟩

/-- Every pod item with no `nodeName` ends up both in the unallocated list
and in the pod map with the sentinel assignment. -/
theorem loadPods_unallocated :
    ∀ (items : List PodItem) (st out : PodMap × List String),
      loadPods st items = .ok out →
      ∀ p ∈ items, p.nodeName = none →
        podKey p ∈ out.2
          ∧ ∃ rec : PodRec, (podKey p, rec) ∈ out.1
              ∧ rec.node_name = "unallocated" := by
  intro items
  induction items with
  | nil =>
    intro st out h p hp
    exact absurd hp (List.not_mem_nil p)
  | cons pod rest ih =>
    intro st out h p hp hnone
    unfold loadPods at h
    cases hstep : loadPodsStep st pod with
    | error e => rw [hstep] at h; exact absurd h (by simp)
    | ok st2 =>
      rw [hstep] at h
      rcases List.mem_cons.mp hp with hpeq | hptail
      · subst hpeq
        obtain ⟨-, r, hpods, hcases⟩ := loadPodsStep_ok st st2 p hstep
        rcases hcases with ⟨-, hr, hu⟩ | ⟨n, hn, -, -⟩
        · obtain ⟨hm1, hm2⟩ := loadPods_mono rest st2 out h
          refine ⟨hm2 _ ?_, r, hm1 _ ?_, hr⟩
          · rw [hu]; exact List.mem_append_right _ (List.mem_singleton_self _)
          · rw [hpods]; exact List.mem_append_right _ (List.mem_singleton_self _)
        · rw [hnone] at hn; exact absurd hn (by simp)
      · exact ih st2 out h p hptail hnone

/-- C7: on a successful run, every pod item with no `nodeName` field has its
namespaced key recorded in the unallocated list, its record carries the
sentinel assignment `"unallocated"`, and the aggregation step leaves every
node map unchanged on it — it is folded into no node. -/
theorem claim_C7 (nd : List NodeItem) (pd : List PodItem)
    (final : NodeMap) (pods : PodMap) (unalloc : List String)
    (h : resources nd pd = .ok (final, pods, unalloc))
    (p : PodItem) (hp : p ∈ pd) (hnone : p.nodeName = none) :
    podKey p ∈ unalloc
      ∧ ∃ rec : PodRec, (podKey p, rec) ∈ pods
          ∧ rec.node_name = "unallocated"
          ∧ ∀ ns : NodeMap, aggregateStep ns (podKey p, rec) = .ok ns := by
  unfold resources at h
  split at h
  · exact absurd h (by simp)
  next nodes_resources h1 =>
    split at h
    · exact absurd h (by simp)
    next st h2 =>
      split at h
      · exact absurd h (by simp)
      next fin h3 =>
        injection h with h
        obtain ⟨h4, h5, h6⟩ : fin = final ∧ st.1 = pods ∧ st.2 = unalloc := by
          simpa [Prod.ext_iff] using h
        obtain ⟨hu, rec, hrec, hsent⟩ := loadPods_unallocated pd ([], []) st h2 p hp hnone
        rw [h6] at hu
        rw [h5] at hrec
        refine ⟨hu, rec, hrec, hsent, ?_⟩
        intro ns
        simp [aggregateStep, hsent]

theorem claim_C7_witness :
    podKey podFree ∈ ["ns/free"]
      ∧ ∃ rec : PodRec,
          (podKey podFree, rec) ∈ [("ns/free", (⟨0, 0, 0, 0, "unallocated"⟩ : PodRec))]
          ∧ rec.node_name = "unallocated"
          ∧ ∀ ns : NodeMap, aggregateStep ns (podKey podFree, rec) = .ok ns :=
  claim_C7 [nodeA] [podFree]
    [("node-a", ⟨0, 0, 0, 0, "default", 4, 8192⟩)]
    [("ns/free", ⟨0, 0, 0, 0, "unallocated"⟩)] ["ns/free"]
    run_free podFree (List.mem_singleton_self _) rfl

/-- The pod step preserves the invariant that every key in the unallocated
list is a key of the pod map. -/
theorem loadPodsStep_inv (st st2 : PodMap × List String) (pod : PodItem)
    (h : loadPodsStep st pod = .ok st2)
    (hinv : ∀ k ∈ st.2, k ∈ st.1.map Prod.fst) :
    ∀ k ∈ st2.2, k ∈ st2.1.map Prod.fst := by
  obtain ⟨-, r, hpods, hcases⟩ := loadPodsStep_ok st st2 pod h
  intro k hk
  have hkeys : st2.1.map Prod.fst = st.1.map Prod.fst ++ [podKey pod] := by
    rw [hpods]; simp
  rcases hcases with ⟨-, -, hu⟩ | ⟨n, -, -, hu⟩
  · rw [hu] at hk
    rcases List.mem_append.mp hk with h1 | h1
    · rw [hkeys]; exact List.mem_append_left _ (hinv k h1)
    · rw [List.mem_singleton] at h1
      rw [hkeys, h1]
      exact List.mem_append_right _ (List.mem_singleton_self _)
  · rw [hu] at hk
    rw [hkeys]
    exact List.mem_append_left _ (hinv k hk)

/-- Once a key is present in the pod map and absent from the unallocated
list, the rest of a successful load never adds it to the unallocated
list (duplicates of the key are fatal). -/
theorem loadPods_no_new_unalloc :
    ∀ (items : List PodItem) (st out : PodMap × List String),
      loadPods st items = .ok out →
      ∀ k, k ∈ st.1.map Prod.fst → k ∉ st.2 → k ∉ out.2 := by
  intro items
  induction items with
  | nil =>
    intro st out h k hkeys hnot
    injection h with h
    rw [← h]
    exact hnot
  | cons pod rest ih =>
    intro st out h k hkeys hnot
    unfold loadPods at h
    cases hstep : loadPodsStep st pod with
    | error e => rw [hstep] at h; exact absurd h (by simp)
    | ok st2 =>
      rw [hstep] at h
      obtain ⟨hfresh, r, hpods, hcases⟩ := loadPodsStep_ok st st2 pod hstep
      have hne : podKey pod ≠ k := by
        intro he
        rw [he] at hfresh
        exact hasKey_false st.1 k hfresh hkeys
      have hkeys2 : k ∈ st2.1.map Prod.fst := by
        rw [hpods, List.map_append]
        exact List.mem_append_left _ hkeys
      have hnot2 : k ∉ st2.2 := by
        rcases hcases with ⟨-, -, hu⟩ | ⟨n, -, -, hu⟩
        · rw [hu]
          intro hmem
          rcases List.mem_append.mp hmem with h1 | h1
          · exact hnot h1
          · rw [List.mem_singleton] at h1
            exact hne h1.symm
        · rw [hu]; exact hnot
      exact ih st2 out h k hkeys2 hnot2

/-- A pod item whose `nodeName` is literally `"unallocated"` is recorded in
the pod map with the sentinel assignment but never enters the unallocated
list. -/
theorem loadPods_sentinel :
    ∀ (items : List PodItem) (st out : PodMap × List String),
      loadPods st items = .ok out →
      (∀ k ∈ st.2, k ∈ st.1.map Prod.fst) →
      ∀ p ∈ items, p.nodeName = some "unallocated" →
        podKey p ∉ out.2
          ∧ ∃ rec : PodRec, (podKey p, rec) ∈ out.1
              ∧ rec.node_name = "unallocated" := by
  intro items
  induction items with
  | nil =>
    intro st out h hinv p hp
    exact absurd hp (List.not_mem_nil p)
  | cons pod rest ih =>
    intro st out h hinv p hp hn
    unfold loadPods at h
    cases hstep : loadPodsStep st pod with
    | error e => rw [hstep] at h; exact absurd h (by simp)
    | ok st2 =>
      rw [hstep] at h
      obtain ⟨hfresh, r, hpods, hcases⟩ := loadPodsStep_ok st st2 pod hstep
      rcases List.mem_cons.mp hp with hpeq | hptail
      · subst hpeq
        rcases hcases with ⟨hnone, -, -⟩ | ⟨n, hsome, hrn, hu⟩
        · rw [hn] at hnone; exact absurd hnone (by simp)
        · rw [hn] at hsome
          injection hsome with hsome
          have hknotst : podKey p ∉ st.2 := by
            intro hmem
            exact hasKey_false st.1 (podKey p) hfresh (hinv _ hmem)
          have hkeys2 : podKey p ∈ st2.1.map Prod.fst := by
            rw [hpods, List.map_append]
            exact List.mem_append_right _ (by simp)
          have hknot2 : podKey p ∉ st2.2 := by
            rw [hu]; exact hknotst
          refine ⟨loadPods_no_new_unalloc rest st2 out h _ hkeys2 hknot2, r, ?_, ?_⟩
          · exact (loadPods_mono rest st2 out h).1 _
              (by rw [hpods]; exact List.mem_append_right _ (by simp))
          · rw [hrn, ← hsome]
      · exact ih st2 out h (loadPodsStep_inv st st2 pod hstep hinv) p hptail hn

/-- C9: on a successful run, a pod item whose `nodeName` is the literal
string `"unallocated"` is silently skipped — its key is not in the
unallocated list, its record carries the sentinel assignment and is folded
into no node by the aggregation step — and a run containing such a pod
succeeds although no node named `"unallocated"` exists in the inventory
(the dangling-reference assert is bypassed for this value). -/
theorem claim_C9 (nd : List NodeItem) (pd : List PodItem)
    (final : NodeMap) (pods : PodMap) (unalloc : List String)
    (h : resources nd pd = .ok (final, pods, unalloc))
    (p : PodItem) (hp : p ∈ pd) (hn : p.nodeName = some "unallocated") :
    (podKey p ∉ unalloc
      ∧ ∃ rec : PodRec, (podKey p, rec) ∈ pods
          ∧ rec.node_name = "unallocated"
          ∧ ∀ ns : NodeMap, aggregateStep ns (podKey p, rec) = .ok ns)
    ∧ resources [nodeA] [podSentinel]
        = .ok ([("node-a", ⟨0, 0, 0, 0, "default", 4, 8192⟩)],
               [("ns/ghost", ⟨0, 0, 0, 0, "unallocated"⟩)], [])
    ∧ hasKey [(("node-a" : String), (⟨0, 0, 0, 0, "default", 4, 8192⟩ : NodeRec))]
        "unallocated" = false := by
  refine ⟨?_, run_sentinel, by decide⟩
  unfold resources at h
  split at h
  · exact absurd h (by simp)
  next nodes_resources h1 =>
    split at h
    · exact absurd h (by simp)
    next st h2 =>
      split at h
      · exact absurd h (by simp)
      next fin h3 =>
        injection h with h
        obtain ⟨h4, h5, h6⟩ : fin = final ∧ st.1 = pods ∧ st.2 = unalloc := by
          simpa [Prod.ext_iff] using h
        obtain ⟨hnot, rec, hrec, hsent⟩ :=
          loadPods_sentinel pd ([], []) st h2 (by simp) p hp hn
        rw [h6] at hnot
        rw [h5] at hrec
        refine ⟨hnot, rec, hrec, hsent, ?_⟩
        intro ns
        simp [aggregateStep, hsent]

theorem claim_C9_witness :
    (podKey podSentinel ∉ ([] : List String)
      ∧ ∃ rec : PodRec,
          (podKey podSentinel, rec)
              ∈ [("ns/ghost", (⟨0, 0, 0, 0, "unallocated"⟩ : PodRec))]
          ∧ rec.node_name = "unallocated"
          ∧ ∀ ns : NodeMap, aggregateStep ns (podKey podSentinel, rec) = .ok ns)
    ∧ resources [nodeA] [podSentinel]
        = .ok ([("node-a", ⟨0, 0, 0, 0, "default", 4, 8192⟩)],
               [("ns/ghost", ⟨0, 0, 0, 0, "unallocated"⟩)], [])
    ∧ hasKey [(("node-a" : String), (⟨0, 0, 0, 0, "default", 4, 8192⟩ : NodeRec))]
        "unallocated" = false :=
  claim_C9 [nodeA] [podSentinel]
    [("node-a", ⟨0, 0, 0, 0, "default", 4, 8192⟩)]
    [("ns/ghost", ⟨0, 0, 0, 0, "unallocated"⟩)] []
    run_sentinel podSentinel (List.mem_singleton_self _) rfl

/-- If the container loop succeeds, every container carried a `resources`
key. -/
theorem processContainers_resources_present :
    ∀ (cs : List ContainerData) (t t2 : Totals),
      processContainers t cs = .ok t2 → ∀ c ∈ cs, c.resources ≠ none := by
  intro cs
  induction cs with
  | nil =>
    intro t t2 h c hc
    exact absurd hc (List.not_mem_nil c)
  | cons c0 rest ih =>
    intro t t2 h c hc
    unfold processContainers at h
    cases hstep : containerStep t c0 with
    | error e => rw [hstep] at h; exact absurd h (by simp)
    | ok t3 =>
      rw [hstep] at h
      rcases List.mem_cons.mp hc with hceq | hctail
      · subst hceq
        intro hnone
        rcases c with ⟨cres⟩
        rw [show (ContainerData.mk cres).resources = cres from rfl] at hnone
        subst hnone
        simp [containerStep] at hstep
      · exact ih t3 t2 h c hctail

/-- If the pod load succeeds, every container of every pod item carried a
`resources` key. -/
theorem loadPods_resources_present :
    ∀ (items : List PodItem) (st out : PodMap × List String),
      loadPods st items = .ok out →
      ∀ p ∈ items, ∀ c ∈ p.containers, c.resources ≠ none := by
  intro items
  induction items with
  | nil =>
    intro st out h p hp
    exact absurd hp (List.not_mem_nil p)
  | cons pod rest ih =>
    intro st out h p hp c hc
    unfold loadPods at h
    cases hstep : loadPodsStep st pod with
    | error e => rw [hstep] at h; exact absurd h (by simp)
    | ok st2 =>
      rw [hstep] at h
      rcases List.mem_cons.mp hp with hpeq | hptail
      · subst hpeq
        cases hpc : processContainers Totals.zero p.containers with
        | error e =>
          exfalso
          by_cases hk : hasKey st.1 (podKey p) = true
          · simp [loadPodsStep, hk] at hstep
          · have hkf : hasKey st.1 (podKey p) = false := by
              rwa [Bool.not_eq_true] at hk
            simp [loadPodsStep, hkf, hpc] at hstep
        | ok t =>
          exact processContainers_resources_present p.containers Totals.zero t hpc c hc
      · exact ih st2 out h p hptail c hc

/-- If the whole run succeeds, no pod container lacked a `resources` key. -/
theorem resources_ok_resources_present (nd : List NodeItem) (pd : List PodItem)
    (r : NodeMap × PodMap × List String) (h : resources nd pd = .ok r) :
    ∀ p ∈ pd, ∀ c ∈ p.containers, c.resources ≠ none := by
  unfold resources at h
  split at h
  · exact absurd h (by simp)
  next nodes_resources h1 =>
    split at h
    · exact absurd h (by simp)
    next st h2 => exact loadPods_resources_present pd ([], []) st h2

/-- C10: a container with no `resources` key at all aborts with
`KeyError: 'resources'`, and any run containing such a container fails;
the 1 CPU / 512 MiB default fires only when a `resources` mapping is
present but has no `requests` block. -/
theorem claim_C10 :
    (∀ (t : Totals) (c : ContainerData), c.resources = none →
        containerStep t c = .error (.keyError "resources"))
  ∧ (∀ (nd : List NodeItem) (pd : List PodItem),
        (∃ p ∈ pd, ∃ c ∈ p.containers, c.resources = none) →
        ∃ e, resources nd pd = .error e)
  ∧ (∀ (t : Totals) (c : ContainerData) (res : ContainerResources) (t1 : Totals),
        c.resources = some res → res.requests = none →
        processLimits t res = .ok t1 →
        containerStep t c
          = .ok { t1 with cpu_limit := t1.cpu_limit + 1,
                          memory_limit := t1.memory_limit + 512 }) := by
  refine ⟨?_, ?_, ?_⟩
  · intro t c hnone
    rcases c with ⟨cres⟩
    rw [show (ContainerData.mk cres).resources = cres from rfl] at hnone
    subst hnone
    rfl
  · intro nd pd ⟨p, hp, c, hc, hnone⟩
    cases hres : resources nd pd with
    | error e => exact ⟨e, rfl⟩
    | ok r =>
      exact absurd hnone (resources_ok_resources_present nd pd r hres p hp c hc)
  · intro t c res t1 hres hreq hlim
    rcases c with ⟨cres⟩
    rw [show (ContainerData.mk cres).resources = cres from rfl] at hres
    subst hres
    simp only [containerStep, hlim, hreq]

theorem claim_C10_witness :
    containerStep Totals.zero ⟨none⟩ = .error (.keyError "resources")
  ∧ (∃ e, resources [nodeA] [podNoResources] = .error e)
  ∧ containerStep Totals.zero ⟨some ⟨none, none⟩⟩ = .ok ⟨0, 0, 0 + 1, 0 + 512⟩ :=
  ⟨claim_C10.1 Totals.zero ⟨none⟩ rfl,
   claim_C10.2.1 [nodeA] [podNoResources]
     ⟨podNoResources, List.mem_singleton_self _, ⟨none⟩,
      List.mem_singleton_self _, rfl⟩,
   claim_C10.2.2 Totals.zero ⟨some ⟨none, none⟩⟩ ⟨none, none⟩ Totals.zero
     rfl rfl rfl⟩

/-- C8 (counterexample): the duplicate-node failure on `[nodeA, nodeA]` is a
bare `AssertionError` with an empty message, which therefore does not name
the offending node key `"node-a"` (nor any value). -/
theorem claim_C8_counterexample :
    resources [nodeA, nodeA] [] = .error (.assertionError "")
      ∧ ¬("node-a".data <:+: "".data) := by
  refine ⟨run_dupNodes, ?_⟩
  intro hinf
  have hl := hinf.length_le
  exact absurd hl (by decide)

/-- C8 (amended): only the malformed-quantity failure of the memory
converter names the malformed value (as a suffix of its message, and it
names no pod or node key); the duplicate-key and dangling-node-reference
failures are bare assertion errors with an empty message that name neither
the offending key nor any value. -/
theorem claim_C8_amended (s : String)
    (h1 : strEndsWith s "Mi" = false) (h2 : strEndsWith s "M" = false)
    (h3 : strEndsWith s "Gi" = false) (h4 : strEndsWith s "G" = false)
    (h5 : strEndsWith s "Ki" = false) (h6 : strEndsWith s "K" = false) :
    convert_memory_units s
        = .error (.assertionError ("unsupported units for memory limit: " ++ s))
      ∧ s.data <:+ ("unsupported units for memory limit: " ++ s).data
      ∧ resources [nodeA, nodeA] [] = .error (.assertionError "")
      ∧ resources [nodeA] [podDangling] = .error (.assertionError "") := by
  refine ⟨?_, ?_, run_dupNodes, run_dangling⟩
  · simp [convert_memory_units, h1, h2, h3, h4, h5, h6]
  · rw [String.data_append]
    exact List.suffix_append _ _

theorem claim_C8_amended_witness :
    convert_memory_units "5Q"
        = .error (.assertionError "unsupported units for memory limit: 5Q")
      ∧ "5Q".data <:+ ("unsupported units for memory limit: " ++ "5Q").data
      ∧ resources [nodeA, nodeA] [] = .error (.assertionError "")
      ∧ resources [nodeA] [podDangling] = .error (.assertionError "") :=
  claim_C8_amended "5Q" (by decide) (by decide) (by decide) (by decide)
    (by decide) (by decide)
